import Mathlib

/-!
Shallow embedding of the notes bot core (src/db.py, src/llm.py, src/main.py).

External model pipelines (text generation, sentence embeddings, speech to
text) are modelled as oracle arguments: a call either raises (`Except.error`
with the exception's message) or returns its payload.  Python strings are
modelled as Lean `String` values, with slicing, stripping and joining done
on the underlying character list exactly as Python does them per code point.
-/

namespace NotesBot

/-- Python slice `s[:n]` (first `n` code points). -/
def pyTake (s : String) (n : Nat) : String := String.mk (s.data.take n)

/-- Python `str.strip()`: drop leading and trailing whitespace characters.
(Modulo the exact whitespace set: Python also strips `\x0b`/`\x0c`, which
never matters here.) -/
def pyStrip (s : String) : String :=
  String.mk (((s.data.dropWhile Char.isWhitespace).reverse.dropWhile Char.isWhitespace).reverse)

/-- Python `sep.join(parts)`. -/
def pyJoin (sep : String) (parts : List String) : String :=
  String.intercalate sep parts

/-! ## A model of Python's json.loads

`summarize_and_tag` calls `json.loads` on the brace-delimited fragment of
the model reply.  We model the JSON data type and a recursive-descent
parser for it.  Numeric literals are kept as their source lexeme (none of
the verified properties inspects numeric values).  Objects follow Python
dict semantics: a duplicate key updates the value stored at the key's first
position. -/

inductive Json where
  | null : Json
  | bool : Bool → Json
  | num : String → Json
  | str : String → Json
  | arr : List Json → Json
  | obj : List (String × Json) → Json

/-- JSON insignificant whitespace. -/
def jIsWs (c : Char) : Bool := c = ' ' || c = '\t' || c = '\n' || c = '\r'

def skipWs : List Char → List Char
  | [] => []
  | c :: rest => if jIsWs c then skipWs rest else c :: rest

def hexDigit (c : Char) : Option Nat :=
  if '0' ≤ c ∧ c ≤ '9' then some (c.toNat - '0'.toNat)
  else if 'a' ≤ c ∧ c ≤ 'f' then some (c.toNat - 'a'.toNat + 10)
  else if 'A' ≤ c ∧ c ≤ 'F' then some (c.toNat - 'A'.toNat + 10)
  else none

/-- Parse the body of a JSON string literal (the opening quote already
consumed), handling the escape sequences `json.loads` accepts and rejecting
raw control characters. -/
def parseStringBody (fuel : Nat) (acc : List Char) (cs : List Char) :
    Option (String × List Char) :=
  match fuel with
  | 0 => none
  | fuel + 1 =>
    match cs with
    | [] => none
    | c :: rest =>
      if c = '"' then some (String.mk acc.reverse, rest)
      else if c = '\\' then
        match rest with
        | [] => none
        | e :: rest2 =>
          if e = '"' then parseStringBody fuel ('"' :: acc) rest2
          else if e = '\\' then parseStringBody fuel ('\\' :: acc) rest2
          else if e = '/' then parseStringBody fuel ('/' :: acc) rest2
          else if e = 'b' then parseStringBody fuel ('\x08' :: acc) rest2
          else if e = 'f' then parseStringBody fuel ('\x0c' :: acc) rest2
          else if e = 'n' then parseStringBody fuel ('\n' :: acc) rest2
          else if e = 'r' then parseStringBody fuel ('\x0d' :: acc) rest2
          else if e = 't' then parseStringBody fuel ('\t' :: acc) rest2
          else if e = 'u' then
            match rest2 with
            | h1 :: h2 :: h3 :: h4 :: rest3 =>
              match hexDigit h1, hexDigit h2, hexDigit h3, hexDigit h4 with
              | some a, some b, some c2, some d =>
                parseStringBody fuel (Char.ofNat (((a * 16 + b) * 16 + c2) * 16 + d) :: acc) rest3
              | _, _, _, _ => none
            | _ => none
          else none
      else if c.toNat < 32 then none
      else parseStringBody fuel (c :: acc) rest

/-- Take a maximal run of decimal digits. -/
def takeDigits : List Char → List Char × List Char
  | [] => ([], [])
  | c :: rest =>
    if c.isDigit then
      let p := takeDigits rest
      (c :: p.1, p.2)
    else ([], c :: rest)

/-- Optional fraction part of a JSON number. -/
def parseFracPart (acc : List Char) (cs : List Char) : Option (List Char × List Char) :=
  match cs with
  | '.' :: rest =>
    match rest with
    | c :: rest2 =>
      if c.isDigit then
        let p := takeDigits rest2
        some (acc ++ '.' :: c :: p.1, p.2)
      else none
    | [] => none
  | _ => some (acc, cs)

/-- Optional exponent part of a JSON number. -/
def parseExpPart (acc : List Char) (cs : List Char) : Option (List Char × List Char) :=
  match cs with
  | e :: rest =>
    if e = 'e' ∨ e = 'E' then
      match rest with
      | s :: rest2 =>
        if s = '+' ∨ s = '-' then
          match rest2 with
          | c :: rest3 =>
            if c.isDigit then
              let p := takeDigits rest3
              some (acc ++ e :: s :: c :: p.1, p.2)
            else none
          | [] => none
        else if s.isDigit then
          let p := takeDigits rest2
          some (acc ++ e :: s :: p.1, p.2)
        else none
      | [] => none
    else some (acc, cs)
  | [] => some (acc, cs)

/-- Parse a JSON numeric literal, returning its lexeme. -/
def parseNumber (cs : List Char) : Option (List Char × List Char) :=
  let p := match cs with
    | '-' :: r => (['-'], r)
    | _ => (([] : List Char), cs)
  match p.2 with
  | [] => none
  | c :: rest =>
    if c = '0' then
      match parseFracPart (p.1 ++ ['0']) rest with
      | some q => parseExpPart q.1 q.2
      | none => none
    else if c.isDigit then
      let d := takeDigits rest
      match parseFracPart (p.1 ++ c :: d.1) d.2 with
      | some q => parseExpPart q.1 q.2
      | none => none
    else none

/-- Python dict insertion: a duplicate key keeps its original position and
gets the new value; a new key is appended. -/
def setKey : List (String × Json) → String → Json → List (String × Json)
  | [], k, v => [(k, v)]
  | (k1, v1) :: rest, k, v =>
    if k1 = k then (k1, v) :: rest else (k1, v1) :: setKey rest k v

mutual

def parseValue (fuel : Nat) (cs : List Char) : Option (Json × List Char) :=
  match fuel with
  | 0 => none
  | fuel + 1 =>
    match skipWs cs with
    | [] => none
    | c :: rest =>
      if c = '"' then
        match parseStringBody (rest.length + 1) [] rest with
        | some (s, r) => some (.str s, r)
        | none => none
      else if c = '{' then parseObject fuel (skipWs rest) []
      else if c = '[' then parseArray fuel (skipWs rest) []
      else if c = 't' then
        match rest with
        | 'r' :: 'u' :: 'e' :: r => some (.bool true, r)
        | _ => none
      else if c = 'f' then
        match rest with
        | 'a' :: 'l' :: 's' :: 'e' :: r => some (.bool false, r)
        | _ => none
      else if c = 'n' then
        match rest with
        | 'u' :: 'l' :: 'l' :: r => some (.null, r)
        | _ => none
      else
        match parseNumber (c :: rest) with
        | some (lex, r) => some (.num (String.mk lex), r)
        | none => none

def parseArray (fuel : Nat) (cs : List Char) (acc : List Json) : Option (Json × List Char) :=
  match fuel with
  | 0 => none
  | fuel + 1 =>
    match cs, acc with
    | ']' :: r, [] => some (.arr [], r)
    | _, _ =>
      match parseValue fuel cs with
      | none => none
      | some (v, r) =>
        match skipWs r with
        | ',' :: r2 => parseArray fuel (skipWs r2) (v :: acc)
        | ']' :: r2 => some (.arr (v :: acc).reverse, r2)
        | _ => none

def parseObject (fuel : Nat) (cs : List Char) (acc : List (String × Json)) :
    Option (Json × List Char) :=
  match fuel with
  | 0 => none
  | fuel + 1 =>
    match cs, acc with
    | '}' :: r, [] => some (.obj [], r)
    | _, _ =>
      match cs with
      | '"' :: r =>
        match parseStringBody (r.length + 1) [] r with
        | none => none
        | some (k, r2) =>
          match skipWs r2 with
          | ':' :: r3 =>
            match parseValue fuel r3 with
            | none => none
            | some (v, r4) =>
              match skipWs r4 with
              | ',' :: r5 => parseObject fuel (skipWs r5) (setKey acc k v)
              | '}' :: r5 => some (.obj (setKey acc k v), r5)
              | _ => none
          | _ => none
      | _ => none

end

/-- Model of Python `json.loads`: parse one JSON value, allowing only
whitespace around it. -/
def jsonLoads (s : String) : Option Json :=
  match parseValue (2 * s.length + 2) s.data with
  | some (v, rest) => if (skipWs rest).isEmpty then some v else none
  | none => none

/-! ## Content Enrichment (src/llm.py, summarize_and_tag)

The text-generation pipeline is an oracle `llm : String → Except String
String`: applied to the prompt it either raises or returns the generated
continuation (`response[0]['generated_text']`). -/

/-- The fixed prompt template of `summarize_and_tag`. -/
def enrichPrompt (text : String) : String :=
  "Analyze this note and provide a brief summary (max 1 sentence) and 3 relevant tags.\nReturn JSON format: \x7b\"summary\": \"...\", \"tags\": [\"tag1\", \"tag2\", \"tag3\"]\x7d\n\nNote: " ++ text ++ "\n\nJSON:"

/-- The degraded result `{"summary": text[:100], "tags": []}`. -/
def enrichFallback (text : String) : Json :=
  Json.obj [("summary", Json.str (pyTake text 100)), ("tags", Json.arr [])]

/-- The brace-delimited fragment extraction of `summarize_and_tag`: when the
reply contains both a `'{'` and a `'}'`, the slice
`content[content.index('{') : content.rindex('}') + 1]`. -/
def extractFragment (content : String) : Option String :=
  let cs := content.data
  if cs.any (fun c => c = '{') && cs.any (fun c => c = '}') then
    let jsonStart := cs.findIdx (fun c => c = '{')
    let jsonEnd := cs.length - 1 - cs.reverse.findIdx (fun c => c = '}') + 1
    some (String.mk ((cs.drop jsonStart).take (jsonEnd - jsonStart)))
  else none

/-- `summarize_and_tag` from src/llm.py.  On a model exception, on a reply
without both braces, or on a `json.loads` failure it returns the fallback;
when the extracted fragment parses, the parsed value is returned as is. -/
def summarize_and_tag (llm : String → Except String String) (text : String) : Json :=
  match llm (enrichPrompt text) with
  | .error _ => enrichFallback text
  | .ok generated =>
    let content := pyStrip generated
    match extractFragment content with
    | some jsonStr =>
      match jsonLoads jsonStr with
      | some result => result
      | none => enrichFallback text
    | none => enrichFallback text

/-- The successfully-parsed model reply, if any: `none` marks every path on
which `summarize_and_tag` falls back. -/
def parsedReply (llm : String → Except String String) (text : String) : Option Json :=
  match llm (enrichPrompt text) with
  | .error _ => none
  | .ok generated => (extractFragment (pyStrip generated)).bind jsonLoads

/-- First-match lookup in an object's fields (keys are unique by
construction, Python-dict style). -/
def jLookup : List (String × Json) → String → Option Json
  | [], _ => none
  | (k1, v) :: rest, k => if k1 = k then some v else jLookup rest k

def isStrJson : Json → Bool
  | .str _ => true
  | _ => false

/-- The result shape promised by the spec for Content Enrichment: a
`summary` string field and a `tags` field holding at most 3 labels. -/
def resultShapeOk : Json → Bool
  | .obj fs =>
    (match jLookup fs "summary" with
     | some (.str _) => true
     | _ => false)
    &&
    (match jLookup fs "tags" with
     | some (.arr ts) => decide (ts.length ≤ 3) && ts.all isStrJson
     | _ => false)
  | _ => false

/-! ## Note Store (src/db.py)

The SQLite table is modelled as the list of its rows in insertion (rowid)
order plus the AUTOINCREMENT counter.  `CURRENT_TIMESTAMP` is modelled as a
clock value passed to `add_note`. -/

structure Note where
  id : Nat
  user_id : Int
  content : String
  summary : String
  tags : String
  created_at : Nat
deriving DecidableEq

structure DB where
  notes : List Note
  nextId : Nat

/-- A freshly initialised database: empty table, AUTOINCREMENT counter at 1
(SQLite assigns rowid 1 to the first insert). -/
def init_db : DB := { notes := [], nextId := 1 }

/-- `add_note` from src/db.py: insert a row, return `cursor.lastrowid`. -/
def add_note (db : DB) (user_id : Int) (content summary tags : String) (now : Nat) :
    Nat × DB :=
  let note : Note :=
    { id := db.nextId, user_id := user_id, content := content, summary := summary,
      tags := tags, created_at := now }
  (db.nextId, { notes := db.notes ++ [note], nextId := db.nextId + 1 })

/-- `get_notes` from src/db.py:
`SELECT * FROM notes WHERE user_id = ? ORDER BY created_at DESC`.
SQLite leaves the relative order of rows with equal `created_at`
unspecified; we model the observed table-scan-plus-stable-sort behaviour,
which keeps tied rows in insertion (rowid) order. -/
def get_notes (db : DB) (u : Int) : List Note :=
  List.insertionSort (fun a b => b.created_at ≤ a.created_at)
    (db.notes.filter (fun n => n.user_id == u))

/-- One line of `get_all_notes_text`'s rendering. -/
def renderNoteLine (n : Note) : String :=
  "ID: " ++ toString n.id ++ " | Date: " ++ toString n.created_at
    ++ " | Content: " ++ n.content ++ " | Tags: " ++ n.tags

/-- `get_all_notes_text` from src/db.py. -/
def get_all_notes_text (db : DB) (u : Int) : String :=
  let notes := get_notes db u
  if notes.isEmpty then ""
  else pyJoin "\n" (notes.map renderNoteLine)

/-- Store invariant: every row id is below the AUTOINCREMENT counter, and
ids are strictly increasing in insertion order. -/
def Wf (db : DB) : Prop :=
  (∀ n ∈ db.notes, n.id < db.nextId) ∧ db.notes.Pairwise (fun a b => a.id < b.id)

/-! ## Similarity Retrieval (src/llm.py, semantic_search)

The embedding pipeline is an oracle: either it raises, or it yields the
cosine-similarity function on (query, note text) pairs.  Scores are
modelled as rationals; `torch.topk(..., k)` on a score vector is modelled
as the first `k` entries of the index-score pairs stably sorted by score
descending. -/

/-- The embedding input for one note: `f"{n['content']} {n['tags']}"`. -/
def noteText (n : Note) : String := n.content ++ " " ++ n.tags

/-- Model of Python's two-decimal float formatting `f"{score:.2f}"`. -/
def fmt2 (q : ℚ) : String :=
  let r : Int := round (q * 100)
  let a := r.natAbs
  (if r < 0 then "-" else "") ++ toString (a / 100) ++ "."
    ++ (if a % 100 < 10 then "0" else "") ++ toString (a % 100)

/-- `torch.topk(similarities, k)` as index-score pairs, scores descending,
ties kept in index order. -/
def topkPairs (k : Nat) (sims : List ℚ) : List (Nat × ℚ) :=
  (List.insertionSort (fun a b : Nat × ℚ => b.2 ≤ a.2) sims.enum).take k

/-- One rendered search hit. -/
def renderResult (notes_list : List Note) (p : Nat × ℚ) : String :=
  match notes_list.get? p.1 with
  | none => ""
  | some note =>
    "📌 ID: " ++ toString note.id ++ " (Score: " ++ fmt2 p.2 ++ ")\n"
      ++ "Content: " ++ pyTake note.content 100 ++ "...\n"
      ++ "Tags: " ++ note.tags ++ "\n\n"

/-- The ranked branch of `semantic_search` (reached when the notes list is
non-empty and the embedding calls succeed).  The unreachable empty-topk
case mirrors the IndexError that `top_results.values[0]` would raise, which
the enclosing handler renders as an error string. -/
def searchBody (sim : String → String → ℚ) (query : String) (notes_list : List Note) :
    String :=
  match topkPairs (min 3 notes_list.length)
      (notes_list.map (fun n => sim query (noteText n))) with
  | [] => "Error during search: index out of range"
  | (i0, v0) :: rest =>
    if v0 < 3 / 10 then "No relevant notes found for your query."
    else "Found relevant notes:\n\n"
      ++ String.join (((i0, v0) :: rest).map (renderResult notes_list))

/-- `semantic_search` from src/llm.py. -/
def semantic_search (embedder : Except String (String → String → ℚ)) (query : String)
    (notes_list : List Note) : String :=
  if notes_list.isEmpty then "No notes found."
  else
    match embedder with
    | .error e => "Error during search: " ++ e
    | .ok sim => searchBody sim query notes_list

/-! ## Aggregate Analysis (src/llm.py, analyze_notes) -/

/-- The fixed prompt template of `analyze_notes` (input truncated to 1500
characters). -/
def analyzePrompt (notes_text : String) : String :=
  "Based on these notes, provide a summary of main topics and 3 actionable suggestions:\n\n"
    ++ pyTake notes_text 1500 ++ "\n\nAnalysis:"

/-- `analyze_notes` from src/llm.py. -/
def analyze_notes (llm : String → Except String String) (notes_text : String) : String :=
  if notes_text = "" then "No notes to analyze."
  else
    match llm (analyzePrompt notes_text) with
    | .ok generated =>
      let result := pyStrip generated
      if 4000 < result.length then pyTake result 4000 ++ "..." else result
    | .error e => "Error during analysis: " ++ e

/-! ## Audio Transcription (src/llm.py, transcribe_audio)

The speech-to-text oracle yields the texts of the transcript segments in
emission order, or raises (covering model load errors, corrupt audio and
mid-iteration decoding failures of the lazy segment generator). -/

/-- `transcribe_audio` from src/llm.py. -/
def transcribe_audio (whisper : String → Except String (List String))
    (file_path : String) : String :=
  match whisper file_path with
  | .ok segments => pyStrip (pyJoin " " segments)
  | .error _ => ""

/-! ## Theorems -/

/-- `summarize_and_tag` returns the successfully parsed reply when there is
one and the degraded result otherwise. -/
theorem summarize_and_tag_eq_parsedReply (llm : String → Except String String)
    (text : String) :
    summarize_and_tag llm text = (parsedReply llm text).getD (enrichFallback text) := by
  unfold summarize_and_tag parsedReply
  cases llm (enrichPrompt text) with
  | error e => rfl
  | ok g =>
    cases hf : extractFragment (pyStrip g) with
    | none => simp [hf]
    | some f =>
      cases hp : jsonLoads f with
      | none => simp [hf, hp]
      | some v => simp [hf, hp]

/-- The degraded result always has the spec's shape. -/
theorem resultShapeOk_enrichFallback (text : String) :
    resultShapeOk (enrichFallback text) = true := rfl

/-- C1 counterexample: on a model reply whose brace fragment parses as the
empty JSON object, the result has neither a `summary` nor a `tags` field. -/
theorem enrichment_shape_counterexample :
    resultShapeOk (summarize_and_tag (fun _ => Except.ok "\x7b\x7d") "note") = false := rfl

/-- C1 (amended): for every input text, `summarize_and_tag` never raises
(it is a total function); whenever no brace-delimited fragment of the model
reply parses as JSON — the model call raised, the reply lacks a brace, or
parsing failed — the result is the degraded result, which has a `summary`
string field and a `tags` field with at most 3 labels.  When a fragment
does parse, the parsed value is returned verbatim and need not have that
shape. -/
theorem enrichment_shape_amended (llm : String → Except String String) (text : String)
    (h : parsedReply llm text = none) :
    summarize_and_tag llm text = enrichFallback text
    ∧ resultShapeOk (summarize_and_tag llm text) = true := by
  have he := summarize_and_tag_eq_parsedReply llm text
  rw [h] at he
  exact ⟨he, by rw [he]; exact resultShapeOk_enrichFallback text⟩

theorem enrichment_shape_amended_witness :
    summarize_and_tag (fun _ => Except.error "boom") "txt"
      = enrichFallback "txt"
    ∧ resultShapeOk (summarize_and_tag (fun _ => Except.error "boom") "txt") = true :=
  enrichment_shape_amended (fun _ => Except.error "boom") "txt" rfl

/-- C2: on a raising model call, on a reply without a brace-delimited
fragment, or on a parse failure of the extracted fragment,
`summarize_and_tag` returns exactly `{"summary": text[:100], "tags": []}`. -/
theorem enrichment_fallback_exact (llm : String → Except String String) (text : String) :
    (∀ e, llm (enrichPrompt text) = .error e →
      summarize_and_tag llm text
        = Json.obj [("summary", Json.str (pyTake text 100)), ("tags", Json.arr [])])
    ∧ (∀ g, llm (enrichPrompt text) = .ok g → extractFragment (pyStrip g) = none →
      summarize_and_tag llm text
        = Json.obj [("summary", Json.str (pyTake text 100)), ("tags", Json.arr [])])
    ∧ (∀ g f, llm (enrichPrompt text) = .ok g → extractFragment (pyStrip g) = some f →
      jsonLoads f = none →
      summarize_and_tag llm text
        = Json.obj [("summary", Json.str (pyTake text 100)), ("tags", Json.arr [])]) := by
  refine ⟨fun e he => ?_, fun g hg hf => ?_, fun g f hg hf hp => ?_⟩
  · simp [summarize_and_tag, he, enrichFallback]
  · simp [summarize_and_tag, hg, hf, enrichFallback]
  · simp [summarize_and_tag, hg, hf, hp, enrichFallback]

theorem enrichment_fallback_exact_witness :
    summarize_and_tag (fun _ => Except.error "boom") "hello"
      = Json.obj [("summary", Json.str (pyTake "hello" 100)), ("tags", Json.arr [])]
    ∧ summarize_and_tag (fun _ => Except.ok "no braces") "hello"
      = Json.obj [("summary", Json.str (pyTake "hello" 100)), ("tags", Json.arr [])]
    ∧ summarize_and_tag (fun _ => Except.ok "\x7d\x7b") "hello"
      = Json.obj [("summary", Json.str (pyTake "hello" 100)), ("tags", Json.arr [])] :=
  ⟨(enrichment_fallback_exact _ "hello").1 "boom" rfl,
   (enrichment_fallback_exact _ "hello").2.1 "no braces" rfl rfl,
   (enrichment_fallback_exact _ "hello").2.2 "\x7d\x7b" "" rfl rfl rfl⟩

/-- C10: when the (stripped) model reply contains both a `'{'` and a `'}'`
and the slice from the first `'{'` to the last `'}'` parses as JSON,
`summarize_and_tag` returns the parsed value verbatim, with no shape
validation. -/
theorem enrichment_verbatim_parse (llm : String → Except String String)
    (text g f : String) (v : Json)
    (hok : llm (enrichPrompt text) = .ok g)
    (hfrag : extractFragment (pyStrip g) = some f)
    (hparse : jsonLoads f = some v) :
    summarize_and_tag llm text = v := by
  simp [summarize_and_tag, hok, hfrag, hparse]

theorem enrichment_verbatim_parse_witness :
    summarize_and_tag
      (fun _ => Except.ok "Sure! \x7b\"summary\": \"Budget meeting\", \"tags\": [\"budget\",\"meeting\",\"finance\"]\x7d")
      "Meeting notes about budget"
      = Json.obj [("summary", Json.str "Budget meeting"),
          ("tags", Json.arr [Json.str "budget", Json.str "meeting", Json.str "finance"])] :=
  enrichment_verbatim_parse _ "Meeting notes about budget"
    "Sure! \x7b\"summary\": \"Budget meeting\", \"tags\": [\"budget\",\"meeting\",\"finance\"]\x7d"
    "\x7b\"summary\": \"Budget meeting\", \"tags\": [\"budget\",\"meeting\",\"finance\"]\x7d"
    (Json.obj [("summary", Json.str "Budget meeting"),
      ("tags", Json.arr [Json.str "budget", Json.str "meeting", Json.str "finance"])])
    rfl rfl rfl

/-- Inserting an element that every list member fails to precede under `r`
puts it at the head of the insertion sort of the extended list. -/
theorem insertionSort_append_max {α : Type} (r : α → α → Prop) [DecidableRel r] (m : α) :
    ∀ l : List α, (∀ a ∈ l, ¬ r a m) →
      ∃ rest, List.insertionSort r (l ++ [m]) = m :: rest := by
  intro l
  induction l with
  | nil =>
    intro _
    exact ⟨[], by simp [List.insertionSort, List.orderedInsert]⟩
  | cons a l ih =>
    intro h
    obtain ⟨rest, hrest⟩ := ih (fun x hx => h x (List.mem_cons_of_mem a hx))
    refine ⟨List.orderedInsert r a rest, ?_⟩
    have h1 : List.insertionSort r ((a :: l) ++ [m])
        = List.orderedInsert r a (List.insertionSort r (l ++ [m])) := rfl
    rw [h1, hrest]
    show List.orderedInsert r a (m :: rest) = m :: List.orderedInsert r a rest
    simp only [List.orderedInsert]
    rw [if_neg (h a (List.mem_cons_self a l))]

/-- C3 counterexample: two notes added for user 1 with the same
`created_at` (the store's timestamp has one-second granularity).  The first
element returned by `get_notes` is the older note, not the just-added one:
`ORDER BY created_at DESC` returns tied rows in insertion order. -/
theorem add_then_list_newest_first_counterexample :
    (get_notes (add_note (add_note init_db 1 "Buy milk" "" "" 0).2 1 "Call mom" "" "" 0).2 1).head?
      ≠ some { id := (add_note (add_note init_db 1 "Buy milk" "" "" 0).2 1 "Call mom" "" "" 0).1,
               user_id := 1, content := "Call mom", summary := "", tags := "",
               created_at := 0 } := by decide

/-- C3 (amended): after `add_note`, `get_notes` for the same user returns
the just-added note first, provided its creation time is strictly later
than that of every existing note of that user (rows tied at the store's
one-second timestamp granularity may come back older-first); and for a user
none of whose notes are in the store, `get_notes` returns the empty
sequence. -/
theorem add_then_list_newest_first_amended :
    (∀ (db : DB) (u : Int) (c s g : String) (t : Nat),
      (∀ n ∈ db.notes, n.user_id = u → n.created_at < t) →
      ∃ rest, get_notes (add_note db u c s g t).2 u
        = { id := db.nextId, user_id := u, content := c, summary := s, tags := g,
            created_at := t } :: rest)
    ∧ ∀ (db : DB) (u : Int), (∀ n ∈ db.notes, n.user_id ≠ u) → get_notes db u = [] := by
  constructor
  · intro db u c s g t h
    unfold get_notes add_note
    simp only [List.filter_append]
    have hnote : List.filter (fun n => n.user_id == u)
        [({ id := db.nextId, user_id := u, content := c, summary := s, tags := g,
            created_at := t } : Note)]
        = [({ id := db.nextId, user_id := u, content := c, summary := s, tags := g,
                created_at := t } : Note)] := by simp
    rw [hnote]
    apply insertionSort_append_max
    intro a ha
    rw [List.mem_filter] at ha
    have hu : a.user_id = u := by simpa using ha.2
    have := h a ha.1 hu
    simpa using Nat.not_le.2 this
  · intro db u h
    unfold get_notes
    have : db.notes.filter (fun n => n.user_id == u) = [] := by
      apply List.filter_eq_nil_iff.2
      intro a ha
      simpa using h a ha
    rw [this]
    rfl

theorem add_then_list_newest_first_amended_witness :
    (∃ rest,
      get_notes (add_note (add_note init_db 1 "Buy milk" "" "" 0).2 1 "Call mom" "" "" 1).2 1
        = { id := 2, user_id := 1, content := "Call mom", summary := "", tags := "",
            created_at := 1 } :: rest)
    ∧ get_notes init_db 7 = [] :=
  ⟨add_then_list_newest_first_amended.1 (add_note init_db 1 "Buy milk" "" "" 0).2
      1 "Call mom" "" "" 1 (by decide),
   add_then_list_newest_first_amended.2 init_db 7 (by intro n hn; simp [init_db] at hn)⟩

/-- C4: `add_note` returns the AUTOINCREMENT counter, which is strictly
greater than every existing id (so successive ids are strictly increasing
and never reused); the store invariant is preserved; and on a fresh store
the first two adds return ids 1 and 2. -/
theorem note_ids_monotone (db : DB) (u : Int) (c s g : String) (t : Nat) (hwf : Wf db) :
    Wf init_db
    ∧ (add_note db u c s g t).1 = db.nextId
    ∧ (∀ n ∈ db.notes, n.id < (add_note db u c s g t).1)
    ∧ Wf (add_note db u c s g t).2
    ∧ (add_note init_db 1 "Buy milk" "" "" 0).1 = 1
    ∧ (add_note (add_note init_db 1 "Buy milk" "" "" 0).2 1 "Call mom" "" "" 1).1 = 2 := by
  refine ⟨⟨by simp [init_db], by simp [init_db]⟩, rfl, hwf.1, ⟨?_, ?_⟩, rfl, rfl⟩
  · intro n hn
    simp only [add_note, List.mem_append, List.mem_singleton] at hn
    rcases hn with hn | hn
    · exact Nat.lt_succ_of_lt (hwf.1 n hn)
    · rw [hn]; exact Nat.lt_succ_self _
  · simp only [add_note]
    rw [List.pairwise_append]
    refine ⟨hwf.2, List.pairwise_singleton _ _, ?_⟩
    intro a ha b hb
    rw [List.mem_singleton] at hb
    rw [hb]
    exact hwf.1 a ha

theorem note_ids_monotone_witness :
    (add_note init_db 1 "a" "" "" 5).1 = init_db.nextId
    ∧ Wf (add_note init_db 1 "a" "" "" 5).2 :=
  ⟨(note_ids_monotone init_db 1 "a" "" "" 5 ⟨by simp [init_db], by simp [init_db]⟩).2.1,
   (note_ids_monotone init_db 1 "a" "" "" 5
      ⟨by simp [init_db], by simp [init_db]⟩).2.2.2.1⟩

/-- C5: `get_notes` only returns notes owned by the queried user, and both
read operations depend only on the queried user's rows: two stores agreeing
on user `u`'s rows (but free to differ on any other user's rows) give
identical results for `u`. -/
theorem reads_partitioned_by_user (db db2 : DB) (u : Int) :
    (∀ n ∈ get_notes db u, n.user_id = u)
    ∧ (db.notes.filter (fun n => n.user_id == u)
          = db2.notes.filter (fun n => n.user_id == u) →
        get_notes db u = get_notes db2 u
        ∧ get_all_notes_text db u = get_all_notes_text db2 u) := by
  constructor
  · intro n hn
    unfold get_notes at hn
    rw [List.mem_insertionSort, List.mem_filter] at hn
    simpa using hn.2
  · intro h
    have hg : get_notes db u = get_notes db2 u := by
      unfold get_notes
      rw [h]
    exact ⟨hg, by unfold get_all_notes_text; rw [hg]⟩

theorem reads_partitioned_by_user_witness :
    get_notes init_db 3 = get_notes (add_note init_db 2 "x" "" "" 0).2 3
    ∧ get_all_notes_text init_db 3
        = get_all_notes_text (add_note init_db 2 "x" "" "" 0).2 3 :=
  (reads_partitioned_by_user init_db (add_note init_db 2 "x" "" "" 0).2 3).2 (by decide)

/-- C6: on an empty candidate sequence `semantic_search` returns the
literal "No notes found.", whatever the state of the embedding model —
failed, or succeeding with any similarity function — so the embedding model
is not consulted. -/
theorem search_empty_candidates (embedder embedder2 : Except String (String → String → ℚ))
    (query : String) :
    semantic_search embedder query [] = "No notes found."
    ∧ semantic_search embedder query [] = semantic_search embedder2 query [] :=
  ⟨rfl, rfl⟩

/-- The second component of an enumerated pair is a member of the list. -/
theorem snd_mem_of_mem_enum {α : Type} {p : Nat × α} {l : List α}
    (h : p ∈ l.enum) : p.2 ∈ l :=
  List.getElem?_mem (List.mem_enum_iff_getElem?.1 h)

/-- C7: on a non-empty candidate sequence, if every candidate's similarity
score is below 0.3 (equivalently: the top score is), `semantic_search`
returns the "no relevant notes" message, for any number of candidates. -/
theorem search_below_threshold (sim : String → String → ℚ) (query : String)
    (notes_list : List Note) (hne : notes_list ≠ [])
    (hlow : ∀ n ∈ notes_list, sim query (noteText n) < 3 / 10) :
    semantic_search (.ok sim) query notes_list
      = "No relevant notes found for your query." := by
  have hempty : notes_list.isEmpty = false := by
    cases notes_list with
    | nil => exact absurd rfl hne
    | cons a l => rfl
  have hlen : 0 < notes_list.length := by
    cases notes_list with
    | nil => exact absurd rfl hne
    | cons a l => simp
  simp only [semantic_search, hempty, Bool.false_eq_true, if_false]
  unfold searchBody
  have hlen2 : 0 < (topkPairs (min 3 notes_list.length)
      (notes_list.map (fun n => sim query (noteText n)))).length := by
    unfold topkPairs
    rw [List.length_take, List.length_insertionSort, List.enum_length,
      List.length_map]
    omega
  obtain ⟨p, rest, htop⟩ := List.exists_cons_of_ne_nil (List.ne_nil_of_length_pos hlen2)
  have hmem : p.2 ∈ notes_list.map (fun n => sim query (noteText n)) := by
    have hp : p ∈ topkPairs (min 3 notes_list.length)
        (notes_list.map (fun n => sim query (noteText n))) := by
      rw [htop]; exact List.mem_cons_self p rest
    unfold topkPairs at hp
    exact snd_mem_of_mem_enum ((List.mem_insertionSort _).1 (List.mem_of_mem_take hp))
  obtain ⟨n, hn, hv⟩ := List.mem_map.1 hmem
  have hvlow : p.2 < 3 / 10 := hv ▸ hlow n hn
  rw [htop]
  obtain ⟨i0, v0⟩ := p
  simp only []
  rw [if_pos hvlow]

theorem search_below_threshold_witness :
    semantic_search (.ok (fun _ _ => (0 : ℚ))) "query"
        [{ id := 1, user_id := 1, content := "c", summary := "s", tags := "t",
            created_at := 0 }]
      = "No relevant notes found for your query." :=
  search_below_threshold (fun _ _ => (0 : ℚ)) "query" _ (by decide)
    (fun n _ => by norm_num)

/-- C8 counterexample: when the model call raises with a long exception
message, the error branch `f"Error during analysis: {e}"` is returned
untruncated, exceeding 4003 characters. -/
theorem analysis_length_counterexample :
    4003 < (analyze_notes (fun _ => Except.error (String.mk (List.replicate 4000 'x')))
      "n").length := by
  have h : analyze_notes (fun _ => Except.error (String.mk (List.replicate 4000 'x'))) "n"
      = "Error during analysis: " ++ String.mk (List.replicate 4000 'x') := rfl
  have h1 : ("Error during analysis: " : String).length = 23 := rfl
  have h2 : (String.mk (List.replicate 4000 'x')).length = 4000 := by
    rw [String.length_mk, List.length_replicate]
  rw [h, String.length_append, h1, h2]
  norm_num

/-- C8 (amended): whenever the model call on the analysis prompt does not
raise, `analyze_notes` returns at most 4003 characters (4000 plus the
ellipsis); the empty-input message also satisfies the bound.  The error
branch, `"Error during analysis: "` followed by the exception message, is
not truncated and can be longer. -/
theorem analysis_length_amended (llm : String → Except String String) (notes_text : String)
    (h : ∀ e, llm (analyzePrompt notes_text) ≠ Except.error e) :
    (analyze_notes llm notes_text).length ≤ 4003 := by
  unfold analyze_notes
  by_cases he : notes_text = ""
  · rw [if_pos he]; decide
  · rw [if_neg he]
    cases hc : llm (analyzePrompt notes_text) with
    | error e => exact absurd hc (h e)
    | ok g =>
      simp only []
      by_cases hl : 4000 < (pyStrip g).length
      · rw [if_pos hl, String.length_append]
        have : (pyTake (pyStrip g) 4000).length ≤ 4000 := by
          unfold pyTake
          rw [String.length_mk, List.length_take]
          omega
        have h3 : ("..." : String).length = 3 := rfl
        omega
      · rw [if_neg hl]
        omega

theorem analysis_length_amended_witness :
    (analyze_notes (fun _ => Except.ok "short answer") "some notes").length ≤ 4003 :=
  analysis_length_amended (fun _ => Except.ok "short answer") "some notes"
    (fun _ hc => Except.noConfusion hc)

/-- C9: `transcribe_audio` returns the transcript segments joined in
emission order by single spaces with surrounding whitespace stripped, and
the empty string whenever the speech-to-text call fails. -/
theorem transcription_join_or_empty (whisper : String → Except String (List String))
    (file_path : String) :
    (∀ e, whisper file_path = .error e → transcribe_audio whisper file_path = "")
    ∧ (∀ segments, whisper file_path = .ok segments →
        transcribe_audio whisper file_path = pyStrip (pyJoin " " segments)) := by
  refine ⟨fun e he => ?_, fun segments hs => ?_⟩
  · simp [transcribe_audio, he]
  · simp [transcribe_audio, hs]

theorem transcription_join_or_empty_witness :
    transcribe_audio (fun _ => Except.error "corrupt audio") "a.ogg" = ""
    ∧ transcribe_audio (fun _ => Except.ok ["hello", "world"]) "a.ogg"
        = pyStrip (pyJoin " " ["hello", "world"]) :=
  ⟨(transcription_join_or_empty (fun _ => Except.error "corrupt audio") "a.ogg").1
      "corrupt audio" rfl,
   (transcription_join_or_empty (fun _ => Except.ok ["hello", "world"]) "a.ogg").2
      ["hello", "world"] rfl⟩

end NotesBot
